import Mathlib

/-!
Verification of the accounting core of the hourly-wage-count repository.

The core consists of three classes defined in `js/test-integration.js`
(the canonical copy of the many near-duplicate variants in the repository):

* `WageCounter`   (lines 285-503)  — the earnings accumulator;
* `TimerManager`  (lines 509-681)  — the pause/resume elapsed-time clock;
* `WageCounterApp`(lines 908-1281) — the coordinator keeping both in lockstep.

Modelling conventions:

* JavaScript numbers are modelled by `JSVal`: a finite number (`num q`, with
  `q : ℚ` standing for the ideal value of the stored double), `nan` (the
  number `NaN`), or `other` (a non-numeric value whose coercion to number
  yields `NaN`, e.g. `undefined` or a non-numeric string).  Signed infinities
  are not modelled: the only division in the core is by the constant 3600.
* Wall-clock instants (`Date.now()` values, `new Date()` objects) are integer
  milliseconds `now : ℤ`, passed explicitly to each operation that reads the
  clock.  JavaScript truthiness of a millisecond number is `≠ 0`.
* `setInterval` returns an opaque positive integer handle, modelled as
  `some 1`; the scheduled tick closure itself (the `WeakRef` callback
  machinery) only drives *when* `updateEarnings` runs and is not part of any
  state transition modelled here.
* Exact IEEE-754 binary64 arithmetic, needed for the one numeric-exactness
  claim, is modelled separately at the end by an integer mantissa/exponent
  pair with round-to-nearest-even.
-/

/-- A JavaScript value as it can appear in the numeric slots of the core:
a finite number (with its ideal rational value), the number `NaN`, or a
non-numeric value that coerces to `NaN`. -/
inductive JSVal where
  | num (q : ℚ)
  | nan
  | other
deriving DecidableEq

namespace JSVal

/-- JavaScript comparison `v < c` against a numeric constant: `NaN` and
values coercing to `NaN` compare `false`. -/
def lt (v : JSVal) (c : ℚ) : Bool :=
  match v with
  | num q => decide (q < c)
  | _ => false

/-- JavaScript comparison `v <= c` against a numeric constant. -/
def le (v : JSVal) (c : ℚ) : Bool :=
  match v with
  | num q => decide (q ≤ c)
  | _ => false

/-- JavaScript multiplication: any `NaN`/non-numeric operand yields `NaN`. -/
def mul (a b : JSVal) : JSVal :=
  match a, b with
  | num x, num y => num (x * y)
  | _, _ => nan

/-- JavaScript division by a nonzero numeric constant (the core only ever
divides by 3600): `NaN`/non-numeric dividends yield `NaN`. -/
def divC (v : JSVal) (c : ℚ) : JSVal :=
  match v with
  | num q => num (q / c)
  | _ => nan

end JSVal

/-- State of the `WageCounter` class (js/test-integration.js lines 285-503).
`startTime` holds a `Date` object (or `null`), modelled as milliseconds. -/
structure WageCounter where
  hourlyWage : JSVal
  currentEarnings : JSVal
  elapsedSeconds : JSVal
  isRunning : Bool
  perSecondWage : JSVal
  startTime : Option ℤ
  pausedTime : JSVal
deriving DecidableEq

namespace WageCounter

/-- The `WageCounter` constructor (lines 286-294): everything zeroed. -/
def init : WageCounter :=
  { hourlyWage := .num 0, currentEarnings := .num 0, elapsedSeconds := .num 0,
    isRunning := false, perSecondWage := .num 0, startTime := none,
    pausedTime := .num 0 }

/-- `setHourlyWage(wage)` (lines 300-304): clamps `wage < 0` to 0 (a
comparison that is `false` for `NaN`/non-numeric input, which is therefore
stored unchanged) and recomputes `perSecondWage = hourlyWage / 3600`. -/
def setHourlyWage (st : WageCounter) (wage : JSVal) : WageCounter :=
  let hw := if wage.lt 0 = true then .num 0 else wage
  { st with hourlyWage := hw, perSecondWage := hw.divC 3600 }

/-- Getter `getHourlyWage()` (lines 310-312). -/
def getHourlyWage (st : WageCounter) : JSVal := st.hourlyWage

/-- Getter `getCurrentEarnings()` (lines 318-320). -/
def getCurrentEarnings (st : WageCounter) : JSVal := st.currentEarnings

/-- Getter `getElapsedTime()` (lines 334-336). -/
def getElapsedTime (st : WageCounter) : JSVal := st.elapsedSeconds

/-- Getter `getPerSecondWage()` (lines 350-352). -/
def getPerSecondWage (st : WageCounter) : JSVal := st.perSecondWage

/-- Getter `getIsRunning()` (lines 394-396). -/
def getIsRunning (st : WageCounter) : Bool := st.isRunning

/-- `calculateEarningsForSeconds(seconds)` (lines 374-381): non-numeric,
`NaN` or negative seconds yield 0; otherwise a defensively clamped
`perSecondWage` is multiplied by `seconds`. -/
def calculateEarningsForSeconds (st : WageCounter) (seconds : JSVal) : JSVal :=
  match seconds with
  | .num s =>
      if s < 0 then .num 0
      else JSVal.mul (if st.perSecondWage.lt 0 = true then .num 0 else st.perSecondWage)
        (.num s)
  | _ => .num 0

/-- `updateCurrentEarnings()` (lines 386-388): recompute `currentEarnings`
from the stored `elapsedSeconds`. -/
def updateCurrentEarnings (st : WageCounter) : WageCounter :=
  { st with currentEarnings := st.calculateEarningsForSeconds st.elapsedSeconds }

/-- `updateElapsedTime(elapsedSeconds)` (lines 442-445): stores the argument
unconditionally, then recomputes earnings. -/
def updateElapsedTime (st : WageCounter) (v : JSVal) : WageCounter :=
  updateCurrentEarnings { st with elapsedSeconds := v }

/-- `start()` (lines 450-457): sets the running flag; records the session
start only if not already set (a `Date` object is always truthy, `null` is
falsy, so the JavaScript `if (!this.startTime)` is a `none` test). -/
def start (st : WageCounter) (now : ℤ) : WageCounter :=
  if st.isRunning = true then st
  else
    { st with
      isRunning := true
      startTime := if st.startTime = none then some now else st.startTime }

/-- `stop()` (lines 462-464). -/
def stop (st : WageCounter) : WageCounter :=
  { st with isRunning := false }

/-- `reset()` (lines 495-502): clears session state, keeps the wage. -/
def reset (st : WageCounter) : WageCounter :=
  { st with
    currentEarnings := .num 0
    elapsedSeconds := .num 0
    isRunning := false
    startTime := none
    pausedTime := .num 0 }

end WageCounter

/-- JavaScript `s.padStart(2, '0')` on a string. -/
def padStart2 (s : String) : String :=
  if s.length < 2 then String.mk (List.replicate (2 - s.length) '0') ++ s else s

/-- Body of `WageCounter.getFormattedElapsedTime()` (lines 470-477) for a
non-negative integer `totalSeconds`: `Math.floor` of the hour/minute
quotients is natural division, `toString()` of a natural number is its
decimal representation `Nat.repr`. -/
def formatHMS (totalSeconds : ℕ) : String :=
  padStart2 (Nat.repr (totalSeconds / 3600)) ++ ":" ++
    padStart2 (Nat.repr (totalSeconds % 3600 / 60)) ++ ":" ++
    padStart2 (Nat.repr (totalSeconds % 60))

/-- `getFormattedElapsedTime()` (lines 470-477) reads `this.elapsedSeconds`.
The stringification is modelled on the domain the accounting core produces
and the specification speaks about — non-negative integers; `none` marks
values outside that domain (JavaScript would stringify fractional or `NaN`
seconds, which no stated property concerns). -/
def WageCounter.getFormattedElapsedTime (st : WageCounter) : Option String :=
  match st.elapsedSeconds with
  | .num q => if 0 ≤ q.num ∧ q.den = 1 then some (formatHMS q.num.toNat) else none
  | _ => none

/-- State of the `TimerManager` class (lines 509-681).  The constructor's
callback is the coordinator's tick closure; tick delivery is external to the
state transitions modelled here, so the field is omitted.  `intervalId`
holds the `setInterval` handle (browsers return a positive integer;
`start` stores `some 1`). -/
structure TimerManager where
  intervalId : Option ℕ
  isRunning : Bool
  startTime : Option ℤ
  pausedTime : ℤ
  updateInterval : ℚ
deriving DecidableEq

namespace TimerManager

/-- The `TimerManager` constructor (lines 510-517). -/
def init : TimerManager :=
  { intervalId := none, isRunning := false, startTime := none,
    pausedTime := 0, updateInterval := 1000 }

/-- `start()` (lines 522-553): no-op when already running; otherwise records
the anchor instant and schedules the repeating tick (handle modelled as 1). -/
def start (tm : TimerManager) (now : ℤ) : TimerManager :=
  if tm.isRunning = true then tm
  else { tm with isRunning := true, startTime := some now, intervalId := some 1 }

/-- `stop()` (lines 558-577): no-op when not running; otherwise clears the
running flag, folds `now - startTime` into `pausedTime` when the anchor is
truthy, and clears a truthy interval handle.  Note the source does NOT null
out `this.startTime`. -/
def stop (tm : TimerManager) (now : ℤ) : TimerManager :=
  if tm.isRunning = false then tm
  else
    { tm with
      isRunning := false
      pausedTime :=
        match tm.startTime with
        | some s => if s ≠ 0 then tm.pausedTime + (now - s) else tm.pausedTime
        | none => tm.pausedTime
      intervalId :=
        match tm.intervalId with
        | some h => if h ≠ 0 then none else some h
        | none => none }

/-- `reset()` (lines 582-594): stop if running, then zero the anchor, the
accumulated time and the running flag. -/
def reset (tm : TimerManager) (now : ℤ) : TimerManager :=
  let tm1 := if tm.isRunning = true then tm.stop now else tm
  { tm1 with startTime := none, pausedTime := 0, isRunning := false }

/-- `getElapsedSeconds()` (lines 600-610): accumulated milliseconds plus
the open segment when running with a truthy anchor, floor-divided by 1000
(`Int` division by a positive constant is floor division, matching
`Math.floor`). -/
def getElapsedSeconds (tm : TimerManager) (now : ℤ) : ℤ :=
  let extra : ℤ :=
    match tm.startTime with
    | some s => if tm.isRunning = true ∧ s ≠ 0 then now - s else 0
    | none => 0
  (tm.pausedTime + extra) / 1000

/-- Getter `getIsRunning()` (lines 616-618). -/
def getIsRunning (tm : TimerManager) : Bool := tm.isRunning

/-- `setUpdateInterval(interval)` (lines 624-634): positive numeric input
updates the interval and, when running, restarts via an immediate
stop-start cycle; anything else is silently ignored. -/
def setUpdateInterval (tm : TimerManager) (v : JSVal) (now : ℤ) : TimerManager :=
  match v with
  | .num q =>
      if 0 < q then
        let tm1 := { tm with updateInterval := q }
        if tm1.isRunning = true then (tm1.stop now).start now else tm1
      else tm
  | _ => tm

end TimerManager

/-- A non-`reset` public `TimerManager` operation, for stating trace
properties of elapsed time. -/
inductive TMOp where
  | tstart
  | tstop
  | tsetInterval (v : JSVal)

/-- Apply one timestamped operation. -/
def applyOp (p : ℤ × TMOp) (tm : TimerManager) : TimerManager :=
  match p.2 with
  | .tstart => tm.start p.1
  | .tstop => tm.stop p.1
  | .tsetInterval v => tm.setUpdateInterval v p.1

/-- Apply a chronological list of timestamped operations. -/
def applyOps : List (ℤ × TMOp) → TimerManager → TimerManager
  | [], tm => tm
  | p :: rest, tm => applyOps rest (applyOp p tm)

/-- Chronology constraint: all operation timestamps lie, in order, between
the first read time and the second read time. -/
def Chrono : ℤ → List (ℤ × TMOp) → ℤ → Prop
  | t1, [], t2 => t1 ≤ t2
  | t1, p :: rest, t2 => t1 ≤ p.1 ∧ Chrono p.1 rest t2

/-- States of the `TimerManager` reachable from the constructor through its
public operations, each invoked at an arbitrary instant. -/
inductive TMReachable : TimerManager → Prop where
  | init : TMReachable TimerManager.init
  | start : ∀ tm now, TMReachable tm → TMReachable (tm.start now)
  | stop : ∀ tm now, TMReachable tm → TMReachable (tm.stop now)
  | reset : ∀ tm now, TMReachable tm → TMReachable (tm.reset now)
  | setUpdateInterval : ∀ tm v now, TMReachable tm → TMReachable (tm.setUpdateInterval v now)

/-- `InputValidator.validateWage` (lines 821-876) on a stored value: numeric
values must be between 0 and 1,000,000 with at most two decimal places (a
rational has at most two decimal places iff its reduced denominator divides
100); the empty string, `null`, `NaN` and values that do not parse as a
number are rejected.  Returns the validated value. -/
def validateWage (v : JSVal) : Option ℚ :=
  match v with
  | .num q => if q < 0 ∨ 1000000 < q ∨ ¬(q.den ∣ 100) then none else some q
  | _ => none

/-- State of the `WageCounterApp` class (lines 908-1281).  The
`StorageManager`'s persisted `hourlyWage` entry is abstracted to
`storedWage` (persistence mechanics are an excluded collaborator);
`loadSettings('hourlyWage', 0)` yields the stored value, or the default 0
when nothing is stored.  The validator and currency formatter are
stateless; the visualization-mode setting does not touch the accounting
state. -/
structure WageCounterApp where
  wageCounter : WageCounter
  timerManager : Option TimerManager
  isInitialized : Bool
  storedWage : Option JSVal
deriving DecidableEq

namespace WageCounterApp

/-- The `WageCounterApp` constructor (lines 909-916), parametrised by the
storage contents. -/
def create (stored : Option JSVal) : WageCounterApp :=
  { wageCounter := WageCounter.init, timerManager := none,
    isInitialized := false, storedWage := stored }

/-- `setHourlyWage(wage)` (lines 1081-1083): delegates to the counter. -/
def setHourlyWage (app : WageCounterApp) (wage : JSVal) : WageCounterApp :=
  { app with wageCounter := app.wageCounter.setHourlyWage wage }

/-- `loadSavedSettings()` (lines 941-980), outside test mode: loads the
stored wage (default 0, never `null`), validates it, and sets the validated
value — or 0 when validation fails — as the hourly wage. -/
def loadSavedSettings (app : WageCounterApp) : WageCounterApp :=
  let v : JSVal := app.storedWage.getD (.num 0)
  app.setHourlyWage (.num ((validateWage v).getD 0))

/-- `initialize()` (lines 921-936): idempotent; constructs the
`TimerManager` (wiring the tick callback to `updateEarnings`) and loads the
saved settings. -/
def initApp (app : WageCounterApp) : WageCounterApp :=
  if app.isInitialized = true then app
  else
    let app1 := { app with timerManager := some TimerManager.init }
    { app1.loadSavedSettings with isInitialized := true }

/-- `start()` (lines 1089-1111): initializes on demand (after which the
`!this.timerManager` re-check can never fire), refuses with `false` when
`getHourlyWage() <= 0`, and otherwise starts the counter and then the
timer, returning `true`.  The timer start is written with `Option.map`:
an initialized app always holds a `TimerManager`. -/
def start (app : WageCounterApp) (now : ℤ) : Bool × WageCounterApp :=
  let app1 := if app.isInitialized = true then app else app.initApp
  if app1.wageCounter.getHourlyWage.le 0 = true then (false, app1)
  else
    (true,
      { app1 with
        wageCounter := app1.wageCounter.start now
        timerManager := app1.timerManager.map (fun tm => tm.start now) })

/-- `stop()` (lines 1116-1126): no-op when not initialized; otherwise stops
the timer, then the counter. -/
def stop (app : WageCounterApp) (now : ℤ) : WageCounterApp :=
  if app.isInitialized = false then app
  else
    { app with
      wageCounter := app.wageCounter.stop
      timerManager := app.timerManager.map (fun tm => tm.stop now) }

/-- `reset()` (lines 1131-1141): no-op when not initialized; otherwise
resets both components. -/
def reset (app : WageCounterApp) (now : ℤ) : WageCounterApp :=
  if app.isInitialized = false then app
  else
    { app with
      wageCounter := app.wageCounter.reset
      timerManager := app.timerManager.map (fun tm => tm.reset now) }

end WageCounterApp

/-- The snapshot returned by `WageCounterApp.getState()` (lines 1179-1188). -/
structure AppState where
  isRunning : Bool
  hourlyWage : JSVal
  currentEarnings : JSVal
  elapsedSeconds : JSVal
  formattedElapsedTime : Option String
  perSecondWage : JSVal
deriving DecidableEq

/-- `getState()` (lines 1179-1188): a fresh snapshot of the counter's
observable state. -/
def WageCounterApp.getState (app : WageCounterApp) : AppState :=
  { isRunning := app.wageCounter.getIsRunning,
    hourlyWage := app.wageCounter.getHourlyWage,
    currentEarnings := app.wageCounter.getCurrentEarnings,
    elapsedSeconds := app.wageCounter.getElapsedTime,
    formattedElapsedTime := app.wageCounter.getFormattedElapsedTime,
    perSecondWage := app.wageCounter.getPerSecondWage }

/-!
Exact IEEE-754 binary64 arithmetic, for the numeric-exactness scenario.
A finite double is represented by a pair `(m, x) : ℤ × ℤ` of value
`m * 2 ^ x`; rounding is round-to-nearest, ties to even, on the true
rational value.  Subnormals, overflow and signed zero are not modelled —
none are reachable at the magnitudes of the scenario.
-/

/-- Fuelled binary logarithm (the fuel argument makes it structurally
recursive, hence kernel-reducible). -/
def log2Fuel : ℕ → ℕ → ℕ
  | 0, _ => 0
  | f+1, n => if n < 2 then 0 else log2Fuel f (n / 2) + 1

/-- Floor of the base-2 logarithm of a positive natural number. -/
def natLog2 (n : ℕ) : ℕ := log2Fuel n n

/-- The integer `2 ^ k`. -/
def pow2 (k : ℕ) : ℤ := 2 ^ k

/-- Round `n / d` (with `d > 0`) to the nearest integer, ties to even. -/
def rnShift (n d : ℤ) : ℤ :=
  let q := n / d
  let r := n % d
  if 2 * r < d then q else if d < 2 * r then q + 1 else if q % 2 = 0 then q else q + 1

/-- Decide `2 ^ e ≤ na / d` for positive `na`, `d` by cross-multiplication. -/
def cmpLePow2 (na d : ℤ) (e : ℤ) : Bool :=
  if 0 ≤ e then decide (pow2 e.toNat * d ≤ na) else decide (d ≤ pow2 (-e).toNat * na)

/-- Floor of the base-2 logarithm of the positive fraction `na / d`. -/
def ilog2Frac (na d : ℤ) : ℤ :=
  let e0 : ℤ := (natLog2 na.toNat : ℤ) - (natLog2 d.toNat : ℤ)
  if cmpLePow2 na d (e0 + 1) = true then e0 + 1
  else if cmpLePow2 na d e0 = true then e0 else e0 - 1

/-- Round the rational `(n / d) * 2 ^ eshift` (`d > 0`) to the nearest
binary64 value: a 53-bit significand scaled so the leading bit sits at
position 52, rounded to nearest with ties to even. -/
def normFP (n d : ℤ) (eshift : ℤ) : ℤ × ℤ :=
  if n = 0 then (0, 0)
  else
    let s : ℤ := if n < 0 then -1 else 1
    let na := s * n
    let e1 := ilog2Frac na d
    let k : ℤ := 52 - e1
    let m := if 0 ≤ k then rnShift (na * pow2 k.toNat) d else rnShift na (d * pow2 (-k).toNat)
    (s * m, e1 - 52 + eshift)

/-- The double nearest to an integer (exact below `2 ^ 53`). -/
def fpOfInt (z : ℤ) : ℤ × ℤ := normFP z 1 0

/-- Binary64 multiplication with round-to-nearest-even. -/
def fpMul (a b : ℤ × ℤ) : ℤ × ℤ := normFP (a.1 * b.1) 1 (a.2 + b.2)

/-- Binary64 division with round-to-nearest-even. -/
def fpDiv (a b : ℤ × ℤ) : ℤ × ℤ :=
  if b.1 < 0 then normFP (-a.1) (-b.1) (a.2 - b.2) else normFP a.1 b.1 (a.2 - b.2)

/-- The rational `2 ^ e` for an integer exponent. -/
def qpow2 (e : ℤ) : ℚ := if 0 ≤ e then (2:ℚ) ^ e.toNat else ((2:ℚ) ^ (-e).toNat)⁻¹

/-- The exact rational value of a modelled double. -/
def fpToRat (a : ℤ × ℤ) : ℚ := (a.1 : ℚ) * qpow2 a.2

/-- `WageCounter.setHourlyWage` at the floating-point level, for a finite
numeric wage: the stored `perSecondWage` is the binary64 quotient of the
(negative-clamped) wage by 3600 (lines 300-304). -/
def perSecondWageFP (wage : ℤ × ℤ) : ℤ × ℤ :=
  fpDiv (if wage.1 < 0 then fpOfInt 0 else wage) (fpOfInt 3600)

/-- `WageCounter.calculateEarningsForSeconds` at the floating-point level,
for finite numeric arguments: negative seconds yield 0, otherwise the
binary64 product of the clamped per-second wage and the seconds
(lines 374-381). -/
def earningsForSecondsFP (perSec seconds : ℤ × ℤ) : ℤ × ℤ :=
  if seconds.1 < 0 then fpOfInt 0
  else fpMul (if perSec.1 < 0 then fpOfInt 0 else perSec) seconds

/-- The seconds values the specification calls invalid for elapsed-time
updates: negative numbers, `NaN`, and non-numeric values. -/
def badSeconds (v : JSVal) : Prop :=
  match v with
  | .num q => q < 0
  | _ => True

/-- Specification-side zero padding: a decimal field padded to at least two
digits. -/
def specPad2 (k : ℕ) : String :=
  if k < 10 then "0" ++ Nat.repr k else Nat.repr k

/-- Specification-side `HH:MM:SS` rendering: hours are the full quotient by
3600 (growing beyond 24 without wrapping), minutes and seconds the usual
remainders, each field zero-padded to at least two digits. -/
def specFormatHMS (n : ℕ) : String :=
  specPad2 (n / 3600) ++ ":" ++ specPad2 (n % 3600 / 60) ++ ":" ++ specPad2 (n % 60)

/-- An initialized app that was started with a positive rate and then had its
rate lowered to zero while running: the refusal path of `start()` on a
running coordinator. -/
def zeroRateWhileRunningApp : WageCounterApp :=
  (((((WageCounterApp.create none).start 1).2.setHourlyWage (.num 100)).start 2).2).setHourlyWage (.num 0)

/-- A counter with rate 3600 that has accrued 10 seconds of earnings. -/
def tenSecondsCounter : WageCounter :=
  (WageCounter.init.setHourlyWage (.num 3600)).updateElapsedTime (.num 10)

/-!  Theorems. -/

theorem list_asString_length (l : List Char) : (List.asString l).length = l.length := rfl

theorem toDigitsCore_length_lower (b : ℕ) :
    ∀ (f n : ℕ) (acc : List Char), 0 < f →
      acc.length + 1 ≤ (Nat.toDigitsCore b f n acc).length := by
  intro f
  induction f with
  | zero => intro n acc h; exact absurd h (by simp)
  | succ f ih =>
      intro n acc _
      simp only [Nat.toDigitsCore]
      split
      · simp
      · cases f with
        | zero => simp [Nat.toDigitsCore]
        | succ f =>
            calc acc.length + 1 = (Nat.digitChar (n % b) :: acc).length := by simp
              _ ≤ _ := Nat.le_of_succ_le (ih (n / b) (Nat.digitChar (n % b) :: acc) (Nat.succ_pos f))

theorem toDigitsCore_length_lower_two (f n : ℕ) (acc : List Char) (hn : 10 ≤ n)
    (hf : 2 ≤ f) : acc.length + 2 ≤ (Nat.toDigitsCore 10 f n acc).length := by
  cases f with
  | zero => exact absurd hf (by simp)
  | succ f =>
      have hdiv : n / 10 ≠ 0 := by
        have : 1 ≤ n / 10 := (Nat.le_div_iff_mul_le (by norm_num)).2 (by omega)
        omega
      simp only [Nat.toDigitsCore, hdiv, if_false]
      have : (Nat.digitChar (n % 10) :: acc).length + 1
          ≤ (Nat.toDigitsCore 10 f (n / 10) (Nat.digitChar (n % 10) :: acc)).length :=
        toDigitsCore_length_lower 10 f (n / 10) _ (by omega)
      simp at this
      omega

theorem repr_length_lower (k : ℕ) (hk : 10 ≤ k) : 2 ≤ (Nat.repr k).length := by
  show 2 ≤ ((Nat.toDigits 10 k).asString).length
  rw [list_asString_length]
  have := toDigitsCore_length_lower_two (k + 1) k [] hk (by omega)
  simpa [Nat.toDigits] using this

theorem padStart2_repr (k : ℕ) : padStart2 (Nat.repr k) = specPad2 k := by
  by_cases hk : k < 10
  · interval_cases k <;> rfl
  · have h2 : ¬(Nat.repr k).length < 2 := by
      have := repr_length_lower k (by omega)
      omega
    simp [padStart2, specPad2, hk, h2]

theorem formatHMS_eq_spec (n : ℕ) : formatHMS n = specFormatHMS n := by
  simp [formatHMS, specFormatHMS, padStart2_repr]

/-- C8: for every non-negative integer `elapsedSeconds`, the
`formattedElapsedTime` field of the state snapshot is `HH:MM:SS` with each
field zero-padded to at least two digits and an hours field that is the
full quotient by 3600, growing beyond 24 without wrapping; in particular
86400 seconds formats as "24:00:00" and 30 hours as "30:00:00". -/
theorem snapshot_formats_elapsed_time (app : WageCounterApp) (n : ℕ)
    (h : app.wageCounter.elapsedSeconds = .num (n : ℚ)) :
    app.getState.formattedElapsedTime = some (specFormatHMS n)
      ∧ formatHMS 86400 = "24:00:00" ∧ formatHMS (30 * 3600) = "30:00:00" := by
  refine ⟨?_, by decide, by decide⟩
  simp [WageCounterApp.getState, WageCounter.getFormattedElapsedTime, h,
    WageCounter.getElapsedTime, formatHMS_eq_spec]

/-- Witness for C8 at a concrete app and elapsed time. -/
theorem snapshot_formats_elapsed_time_witness :
    (WageCounterApp.create none).getState.formattedElapsedTime = some (specFormatHMS 0)
      ∧ formatHMS 86400 = "24:00:00" ∧ formatHMS (30 * 3600) = "30:00:00" :=
  snapshot_formats_elapsed_time (WageCounterApp.create none) 0 (by simp [WageCounterApp.create, WageCounter.init])

set_option maxRecDepth 8000 in
/-- C9: with hourly rate 2500 and 28800 elapsed seconds, the accrued amount
computed by the program's IEEE-754 double arithmetic — `(2500 / 3600) * 28800`
with round-to-nearest-even at each step — is exactly 20000. -/
theorem eight_hours_at_2500_is_exactly_20000 :
    fpToRat (earningsForSecondsFP (perSecondWageFP (fpOfInt 2500)) (fpOfInt 28800)) = 20000 := by
  have h : earningsForSecondsFP (perSecondWageFP (fpOfInt 2500)) (fpOfInt 28800)
      = (5497558138880000, -38) := by decide
  rw [h]
  have h38 : Int.toNat 38 = 38 := rfl
  norm_num [fpToRat, qpow2, h38]

/-- C4 (amended): `setHourlyWage` never throws and immediately recomputes
the per-second rate: a non-negative numeric rate r yields exactly r / 3600
and a negative numeric rate is clamped to a zero rate; but `NaN` and
non-numeric rates are NOT clamped — the stored per-second rate becomes
`NaN` instead of 0. -/
theorem setHourlyWage_recomputes_rate (st : WageCounter) (q : ℚ) :
    ((st.setHourlyWage (.num q)).getPerSecondWage
        = .num (if q < 0 then 0 else q / 3600))
      ∧ (st.setHourlyWage .nan).getPerSecondWage = .nan
      ∧ (st.setHourlyWage .other).getPerSecondWage = .nan := by
  refine ⟨?_, rfl, rfl⟩
  by_cases hq : q < 0
  · simp [WageCounter.setHourlyWage, WageCounter.getPerSecondWage, JSVal.lt,
      JSVal.divC, hq, zero_div]
  · simp [WageCounter.setHourlyWage, WageCounter.getPerSecondWage, JSVal.lt,
      JSVal.divC, hq]

/-- Counterexample to C4 as stated: a `NaN` rate is not clamped to a zero
per-second rate — it propagates. -/
theorem setHourlyWage_nan_not_clamped :
    (WageCounter.init.setHourlyWage .nan).getPerSecondWage ≠ .num 0 := by decide

/-- C3 (amended): invalid seconds (negative, `NaN`, or non-numeric) cause no
accrual — the earnings contribution is 0 and `currentEarnings` is reset to
0 — but the stored `elapsedSeconds` IS overwritten with the invalid value
(the source stores the argument unconditionally before recomputing). -/
theorem updateElapsedTime_invalid_no_accrual (st : WageCounter) (v : JSVal)
    (hv : badSeconds v) :
    st.calculateEarningsForSeconds v = .num 0
      ∧ (st.updateElapsedTime v).currentEarnings = .num 0
      ∧ (st.updateElapsedTime v).elapsedSeconds = v := by
  cases v with
  | num q =>
      simp only [badSeconds] at hv
      simp [WageCounter.calculateEarningsForSeconds, WageCounter.updateElapsedTime,
        WageCounter.updateCurrentEarnings, hv]
  | nan =>
      simp [WageCounter.calculateEarningsForSeconds, WageCounter.updateElapsedTime,
        WageCounter.updateCurrentEarnings]
  | other =>
      simp [WageCounter.calculateEarningsForSeconds, WageCounter.updateElapsedTime,
        WageCounter.updateCurrentEarnings]

/-- Witness for C3 at seconds value -1. -/
theorem updateElapsedTime_invalid_no_accrual_witness :
    WageCounter.init.calculateEarningsForSeconds (.num (-1)) = .num 0
      ∧ (WageCounter.init.updateElapsedTime (.num (-1))).currentEarnings = .num 0
      ∧ (WageCounter.init.updateElapsedTime (.num (-1))).elapsedSeconds = .num (-1) :=
  updateElapsedTime_invalid_no_accrual WageCounter.init (.num (-1)) (by norm_num [badSeconds])

/-- Counterexample to C3 as stated: a negative update replaces a previously
accumulated non-negative `elapsedSeconds` with the invalid value. -/
theorem invalid_seconds_overwrite_elapsed :
    tenSecondsCounter.elapsedSeconds = .num 10
      ∧ (tenSecondsCounter.updateElapsedTime (.num (-5))).elapsedSeconds = .num (-5) := by
  exact ⟨by decide, by decide⟩

/-- C2 (amended): after `updateElapsedTime` with a valid non-negative
seconds value (hence also after the `updateCurrentEarnings` it performs),
the accrued amount equals `perSecondWage * elapsedSeconds` exactly; the
invariant does NOT extend to `setHourlyWage`, which leaves a stale accrued
amount until the next elapsed-time update. -/
theorem earnings_invariant_after_update (st : WageCounter) (p q : ℚ)
    (hp : st.perSecondWage = .num p) (hp0 : 0 ≤ p) (hq : 0 ≤ q) :
    (st.updateElapsedTime (.num q)).currentEarnings
        = JSVal.mul (st.updateElapsedTime (.num q)).perSecondWage
            ((st.updateElapsedTime (.num q)).elapsedSeconds)
      ∧ (st.updateElapsedTime (.num q)).currentEarnings = .num (p * q) := by
  have hq' : ¬(q < 0) := not_lt.2 hq
  have hp' : ¬(p < 0) := not_lt.2 hp0
  simp [WageCounter.updateElapsedTime, WageCounter.updateCurrentEarnings,
    WageCounter.calculateEarningsForSeconds, hp, hq', hp', JSVal.lt, JSVal.mul]

/-- Witness for C2 at the initial counter and 3 seconds. -/
theorem earnings_invariant_after_update_witness :
    (WageCounter.init.updateElapsedTime (.num 3)).currentEarnings
        = JSVal.mul (WageCounter.init.updateElapsedTime (.num 3)).perSecondWage
            ((WageCounter.init.updateElapsedTime (.num 3)).elapsedSeconds)
      ∧ (WageCounter.init.updateElapsedTime (.num 3)).currentEarnings = .num (0 * 3) :=
  earnings_invariant_after_update WageCounter.init 0 3 rfl (by decide) (by decide)

/-- Counterexample to C2 as stated: after `setHourlyWage` while 10 seconds
have elapsed, the accrued amount is stale — it no longer equals
`perSecondWage * elapsedSeconds`. -/
theorem stale_earnings_after_rate_change :
    (tenSecondsCounter.setHourlyWage (.num 7200)).perSecondWage = .num 2
      ∧ (tenSecondsCounter.setHourlyWage (.num 7200)).elapsedSeconds = .num 10
      ∧ (tenSecondsCounter.setHourlyWage (.num 7200)).currentEarnings
          ≠ JSVal.mul (tenSecondsCounter.setHourlyWage (.num 7200)).perSecondWage
              ((tenSecondsCounter.setHourlyWage (.num 7200)).elapsedSeconds) := by
  norm_num [tenSecondsCounter, WageCounter.init, WageCounter.setHourlyWage,
    WageCounter.updateElapsedTime, WageCounter.updateCurrentEarnings,
    WageCounter.calculateEarningsForSeconds, JSVal.lt, JSVal.divC, JSVal.mul]

/-- C5 (amended): `stop()` is a no-op when not running; when running it
folds `now - startTime` into `pausedTime`, sets `running = false` and
cancels the tick schedule (`intervalId` cleared) — but it does NOT clear
the anchor: `startTime` keeps its old value (it is only overwritten by the
next `start` or nulled by `reset`). -/
theorem stop_folds_and_cancels (tm : TimerManager) (now s : ℤ) :
    (tm.isRunning = false → tm.stop now = tm)
      ∧ (tm.isRunning = true → tm.startTime = some s → s ≠ 0 →
          tm.intervalId ≠ some 0 →
          tm.stop now
            = { tm with
                isRunning := false
                pausedTime := tm.pausedTime + (now - s)
                intervalId := none }) := by
  constructor
  · intro h
    simp [TimerManager.stop, h]
  · intro h hs hs0 hid
    cases hI : tm.intervalId with
    | none => simp [TimerManager.stop, h, hs, hs0, hI]
    | some hdl =>
        have hdl0 : hdl ≠ 0 := fun e => hid (by rw [hI, e])
        simp [TimerManager.stop, h, hs, hs0, hI, hdl0]

/-- Witness for C5: stopping a timer started at 5, at instant 12. -/
theorem stop_folds_and_cancels_witness :
    (TimerManager.init.start 5).stop 12
      = { TimerManager.init.start 5 with
          isRunning := false
          pausedTime := (TimerManager.init.start 5).pausedTime + (12 - 5)
          intervalId := none } :=
  (stop_folds_and_cancels (TimerManager.init.start 5) 12 5).2
    (by decide) (by decide) (by decide) (by decide)

/-- Counterexample to C5 as stated: after `stop`, the anchor is NOT
cleared — `startTime` still holds the old instant. -/
theorem stop_does_not_clear_anchor :
    ((TimerManager.init.start 5).stop 12).startTime = some 5
      ∧ ((TimerManager.init.start 5).stop 12).startTime ≠ none := by
  exact ⟨by decide, by decide⟩

/-- C6: pause/resume preserves accumulation — start at `a1`, stop at `b1`,
start again at `a2`, read at `b2`: the reported elapsed seconds are the
floor of the sum of the two active segments in milliseconds, independent of
the pause length `a2 - b1`. -/
theorem pause_resume_accumulates (a1 b1 a2 b2 : ℤ)
    (h0 : 0 < a1) (h1 : a1 ≤ b1) (h2 : b1 ≤ a2) (h3 : a2 ≤ b2) :
    (((TimerManager.init.start a1).stop b1).start a2).getElapsedSeconds b2
      = ((b1 - a1) + (b2 - a2)) / 1000 := by
  have ha1 : a1 ≠ 0 := by omega
  have ha2 : a2 ≠ 0 := by omega
  simp [TimerManager.init, TimerManager.start, TimerManager.stop,
    TimerManager.getElapsedSeconds, ha1, ha2]

/-- Witness for C6: two 1500 ms segments with a 6500 ms pause yield 3 s. -/
theorem pause_resume_accumulates_witness :
    (((TimerManager.init.start 1000).stop 2500).start 9000).getElapsedSeconds 10500
      = ((2500 - 1000) + (10500 - 9000)) / 1000 :=
  pause_resume_accumulates 1000 2500 9000 10500 (by decide) (by decide) (by decide) (by decide)

theorem getElapsed_of_not_running (tm : TimerManager) (h : tm.isRunning = false) (t : ℤ) :
    tm.getElapsedSeconds t = tm.pausedTime / 1000 := by
  unfold TimerManager.getElapsedSeconds
  cases hs : tm.startTime <;> simp [h]

theorem getElapsed_of_running_some (tm : TimerManager) (h : tm.isRunning = true) (s : ℤ)
    (hs : tm.startTime = some s) (t : ℤ) :
    tm.getElapsedSeconds t = (tm.pausedTime + (if s = 0 then 0 else t - s)) / 1000 := by
  unfold TimerManager.getElapsedSeconds
  by_cases h0 : s = 0 <;> simp [hs, h, h0]

theorem getElapsed_of_running_none (tm : TimerManager) (h : tm.isRunning = true)
    (hs : tm.startTime = none) (t : ℤ) :
    tm.getElapsedSeconds t = tm.pausedTime / 1000 := by
  unfold TimerManager.getElapsedSeconds
  simp [hs]

theorem stop_isRunning (tm : TimerManager) (t : ℤ) : (tm.stop t).isRunning = false := by
  by_cases h : tm.isRunning = false <;> simp [TimerManager.stop, h]

theorem stop_pausedTime_of_running_some (tm : TimerManager) (t s : ℤ)
    (hr : tm.isRunning = true) (hs : tm.startTime = some s) :
    (tm.stop t).pausedTime = if s = 0 then tm.pausedTime else tm.pausedTime + (t - s) := by
  unfold TimerManager.stop
  by_cases h0 : s = 0 <;> simp [hr, hs, h0]

theorem stop_pausedTime_of_none (tm : TimerManager) (t : ℤ) (hs : tm.startTime = none) :
    (tm.stop t).pausedTime = tm.pausedTime := by
  by_cases h : tm.isRunning = false <;> simp [TimerManager.stop, h, hs]

theorem getElapsed_mono_time (tm : TimerManager) {t t' : ℤ} (h : t ≤ t') :
    tm.getElapsedSeconds t ≤ tm.getElapsedSeconds t' := by
  have hBool : tm.isRunning = true ∨ tm.isRunning = false := by cases tm.isRunning <;> simp
  rcases hBool with hr | hr
  · cases hs : tm.startTime with
    | none => rw [getElapsed_of_running_none tm hr hs t, getElapsed_of_running_none tm hr hs t']
    | some s =>
        rw [getElapsed_of_running_some tm hr s hs t, getElapsed_of_running_some tm hr s hs t']
        split_ifs
        · exact le_refl _
        · exact Int.ediv_le_ediv (by norm_num) (by omega)
  · rw [getElapsed_of_not_running tm hr t, getElapsed_of_not_running tm hr t']

theorem applyOp_preserves_elapsed (p : ℤ × TMOp) (tm : TimerManager) :
    tm.getElapsedSeconds p.1 ≤ (applyOp p tm).getElapsedSeconds p.1 := by
  obtain ⟨t, op⟩ := p
  have hBool : tm.isRunning = true ∨ tm.isRunning = false := by cases tm.isRunning <;> simp
  cases op with
  | tstart =>
      rcases hBool with hr | hr
      · simp [applyOp, TimerManager.start, hr]
      · have hA : applyOp (t, TMOp.tstart) tm
            = { tm with
                isRunning := true
                startTime := some t
                intervalId := some 1 } := by
          simp [applyOp, TimerManager.start, hr]
        rw [hA, getElapsed_of_not_running tm hr t, getElapsed_of_running_some _ rfl t rfl t]
        split_ifs <;> simp
  | tstop =>
      rcases hBool with hr | hr
      · have hA : applyOp (t, TMOp.tstop) tm = tm.stop t := rfl
        rw [hA, getElapsed_of_not_running (tm.stop t) (stop_isRunning tm t) t]
        cases hs : tm.startTime with
        | none =>
            rw [getElapsed_of_running_none tm hr hs t, stop_pausedTime_of_none tm t hs]
        | some s =>
            rw [getElapsed_of_running_some tm hr s hs t,
              stop_pausedTime_of_running_some tm t s hr hs]
            split_ifs <;> simp
      · have hA : applyOp (t, TMOp.tstop) tm = tm := by simp [applyOp, TimerManager.stop, hr]
        rw [hA]
  | tsetInterval v =>
      cases v with
      | num q =>
          by_cases hq : 0 < q
          · rcases hBool with hr | hr
            · cases hs : tm.startTime with
              | none =>
                  have hA : applyOp (t, TMOp.tsetInterval (.num q)) tm
                      = { tm with
                          updateInterval := q
                          isRunning := true
                          startTime := some t
                          intervalId := some 1 } := by
                    simp [applyOp, TimerManager.setUpdateInterval, hq, hr,
                      TimerManager.start, TimerManager.stop, hs]
                  rw [hA, getElapsed_of_running_none tm hr hs t,
                    getElapsed_of_running_some _ rfl t rfl t]
                  split_ifs <;> simp
              | some s =>
                  have hA : applyOp (t, TMOp.tsetInterval (.num q)) tm
                      = { tm with
                          updateInterval := q
                          isRunning := true
                          startTime := some t
                          intervalId := some 1
                          pausedTime := if s = 0 then tm.pausedTime
                            else tm.pausedTime + (t - s) } := by
                    by_cases h0 : s = 0 <;>
                      simp [applyOp, TimerManager.setUpdateInterval, hq, hr,
                        TimerManager.start, TimerManager.stop, hs, h0]
                  rw [hA, getElapsed_of_running_some tm hr s hs t,
                    getElapsed_of_running_some _ rfl t rfl t]
                  split_ifs <;> simp
            · have hA : applyOp (t, TMOp.tsetInterval (.num q)) tm
                  = { tm with updateInterval := q } := by
                simp [applyOp, TimerManager.setUpdateInterval, hq, hr]
              rw [hA, getElapsed_of_not_running tm hr t,
                getElapsed_of_not_running { tm with updateInterval := q } hr t]
          · have hA : applyOp (t, TMOp.tsetInterval (.num q)) tm = tm := by
              simp [applyOp, TimerManager.setUpdateInterval, hq]
            rw [hA]
      | nan => simp [applyOp, TimerManager.setUpdateInterval]
      | other => simp [applyOp, TimerManager.setUpdateInterval]

/-- C7: elapsed time is monotone — for reads at `t1 ≤ t2` with any
chronological sequence of non-`reset` operations (`start`, `stop`,
`setUpdateInterval` restarts) applied in between, the second read is at
least the first; in particular this holds while continuously running
(empty list) and across a `setUpdateInterval` stop+start restart, which
loses no already-accumulated elapsed time. -/
theorem elapsed_monotone_across_ops (ops : List (ℤ × TMOp)) (t1 t2 : ℤ)
    (tm : TimerManager) (hc : Chrono t1 ops t2) :
    tm.getElapsedSeconds t1 ≤ (applyOps ops tm).getElapsedSeconds t2 := by
  induction ops generalizing tm t1 with
  | nil => exact getElapsed_mono_time tm hc
  | cons p rest ih =>
      obtain ⟨h1, h2⟩ := hc
      calc tm.getElapsedSeconds t1 ≤ tm.getElapsedSeconds p.1 :=
            getElapsed_mono_time tm h1
        _ ≤ (applyOp p tm).getElapsedSeconds p.1 := applyOp_preserves_elapsed p tm
        _ ≤ (applyOps rest (applyOp p tm)).getElapsedSeconds t2 := ih _ _ h2

/-- Witness for C7: a running timer read at 6 and, after a tick-interval
change to 500 ms at 7, read again at 9. -/
theorem elapsed_monotone_across_ops_witness :
    (TimerManager.init.start 5).getElapsedSeconds 6
      ≤ (applyOps [(7, TMOp.tsetInterval (.num 500))] (TimerManager.init.start 5)).getElapsedSeconds 9 :=
  elapsed_monotone_across_ops [(7, TMOp.tsetInterval (.num 500))] 6 9
    (TimerManager.init.start 5) (by norm_num [Chrono])

theorem tm_reachable_flags (tm : TimerManager) (h : TMReachable tm) :
    (tm.isRunning = true → tm.intervalId = some 1)
      ∧ (tm.isRunning = false → tm.intervalId = none) := by
  induction h with
  | init => simp [TimerManager.init]
  | start tm now _ ih =>
      by_cases hr : tm.isRunning = true
      · simpa [TimerManager.start, hr] using ih
      · simp [TimerManager.start, hr]
  | stop tm now _ ih =>
      by_cases hr : tm.isRunning = true
      · have hid := ih.1 hr
        simp [TimerManager.stop, hr, hid]
      · have hr' : tm.isRunning = false := by revert hr; cases tm.isRunning <;> simp
        simpa [TimerManager.stop, hr'] using ih
  | reset tm now _ ih =>
      by_cases hr : tm.isRunning = true
      · have hid := ih.1 hr
        simp [TimerManager.reset, TimerManager.stop, hr, hid]
      · have hr' : tm.isRunning = false := by revert hr; cases tm.isRunning <;> simp
        have hid := ih.2 hr'
        simp [TimerManager.reset, hr', hid]
  | setUpdateInterval tm v now _ ih =>
      cases v with
      | num q =>
          by_cases hq : 0 < q
          · by_cases hr : tm.isRunning = true
            · have hid := ih.1 hr
              simp [TimerManager.setUpdateInterval, TimerManager.stop,
                TimerManager.start, hq, hr, hid]
            · have hr' : tm.isRunning = false := by revert hr; cases tm.isRunning <;> simp
              simpa [TimerManager.setUpdateInterval, hq, hr'] using ih
          · simpa [TimerManager.setUpdateInterval, hq] using ih
      | nan => simpa [TimerManager.setUpdateInterval] using ih
      | other => simpa [TimerManager.setUpdateInterval] using ih

/-- C10: scheduler-resource invariant — after construction and after every
public operation (`start`, `stop`, `reset`, `setUpdateInterval`, each at
arbitrary instants), the timer is running iff it holds a live `setInterval`
handle. -/
theorem timer_scheduler_resource_invariant (tm : TimerManager) (h : TMReachable tm) :
    tm.isRunning = true ↔ tm.intervalId ≠ none := by
  obtain ⟨h1, h2⟩ := tm_reachable_flags tm h
  constructor
  · intro hr
    rw [h1 hr]
    simp
  · intro hne
    cases hb : tm.isRunning with
    | true => rfl
    | false => exact absurd (h2 hb) hne

/-- Witness for C10: the invariant at the freshly constructed timer. -/
theorem timer_scheduler_resource_invariant_witness :
    TimerManager.init.isRunning = true ↔ TimerManager.init.intervalId ≠ none :=
  timer_scheduler_resource_invariant TimerManager.init TMReachable.init

/-- C1 (amended): for every initialized coordinator whose configured hourly
rate is `<= 0`, `start()` returns `false` and leaves the whole state
unchanged — neither sub-component is started; in particular, when the
components were not already running, `getState().isRunning` is `false`
afterwards.  (The unchanged-state form is the strongest true version: if
the rate is lowered to `<= 0` while the app is running, a refused `start()`
leaves both components running.) -/
theorem start_refused_nonpositive_rate (app : WageCounterApp) (now : ℤ)
    (hinit : app.isInitialized = true)
    (hrate : JSVal.le app.wageCounter.getHourlyWage 0 = true) :
    app.start now = (false, app)
      ∧ (app.wageCounter.getIsRunning = false →
          ((app.start now).2.getState).isRunning = false) := by
  have h1 : app.start now = (false, app) := by
    unfold WageCounterApp.start
    simp [hinit, hrate]
  refine ⟨h1, fun hr => ?_⟩
  rw [h1]
  simpa [WageCounterApp.getState, WageCounter.getIsRunning] using hr

/-- Witness for C1 at a freshly initialized app (stored wage absent, so the
rate loads as 0) and instant 3. -/
theorem start_refused_nonpositive_rate_witness :
    (WageCounterApp.create none).initApp.start 3 = (false, (WageCounterApp.create none).initApp)
      ∧ ((WageCounterApp.create none).initApp.wageCounter.getIsRunning = false →
          (((WageCounterApp.create none).initApp.start 3).2.getState).isRunning = false) :=
  start_refused_nonpositive_rate (WageCounterApp.create none).initApp 3 (by decide) (by decide)

/-- Counterexample to C1 as stated: an app started with rate 100 and then
set to rate 0 while running has a non-positive configured rate, yet after
the refused `start()` both components are still running —
`getState().isRunning` is `true`, not `false`. -/
theorem refused_start_leaves_running :
    JSVal.le zeroRateWhileRunningApp.wageCounter.getHourlyWage 0 = true
      ∧ (zeroRateWhileRunningApp.start 3).1 = false
      ∧ ((zeroRateWhileRunningApp.start 3).2.getState).isRunning = true := by
  exact ⟨by decide, by decide, by decide⟩
